import Mathlib

/-!
Verification of the image-checker asynchronous validation service.

This file gives a shallow embedding of the parts of the Rust source that the
checked properties are about, and proves (or refutes) each property against it.

Modelling conventions:
* `Instant` values are natural numbers; `Instant::elapsed`/duration arithmetic
  becomes truncated natural subtraction, which matches the saturating behaviour
  of `Instant` durations.
* `f64` coordinate and distance values are modelled as rationals; all literals
  appearing in the code (90, 180, 0, ...) are exactly representable, and the
  comparisons performed by the code are exact comparisons.
* The `HashMap<String, ProcessingRecord>` index is modelled as a function
  `String → Option ProcessingRecord`; `insert`, `get_mut` and `retain` become
  the pointwise operations `indexInsert`, `indexUpdate` and `cleanupSweep`.
* External library calls (chrono's RFC-3339 parser, the Haversine float
  computation, the filesystem, the VLM) are parameters of the embedded
  functions, since they are not code of this repository; every branch of the
  repository's own code is reproduced.
-/

/-- `ProcessingStatus` from src/models.rs (NotFound is a lookup outcome). -/
inductive Status where
  | accepted
  | inProgress
  | completed
  | failed
  | notFound
deriving DecidableEq, Repr

/-- `Resolution` from src/models.rs. -/
inductive Resolution where
  | acceptedR
  | rejectedR
deriving DecidableEq, Repr

/-- `ValidationResults` from src/models.rs: resolution plus optional reasons. -/
structure VResults where
  resolution : Resolution
  reasons : Option (List String)
deriving DecidableEq, Repr

/-- `ValidationResponse` from src/models.rs. -/
structure VResponse where
  processing_id : String
  results : VResults
deriving DecidableEq, Repr

/-- `LocationRequest` from src/models.rs; f64 fields modelled as rationals. -/
structure LocationRequestM where
  long : ℚ
  lat : ℚ
  max_distance : ℚ
deriving DecidableEq

/-- `DateTimeRequest` from src/models.rs; `duration` is a u64 minute count. -/
structure DateTimeRequestM where
  start : Option String
  endT : Option String
  duration : Option Nat
deriving DecidableEq

/-- `AnalysisRequest` from src/models.rs. -/
structure AnalysisRequestM where
  image_path : Option String
  content : String
  location : Option LocationRequestM
  datetime : Option DateTimeRequestM
deriving DecidableEq

/-- `ValidationRequest` from src/models.rs. -/
structure RequestM where
  processing_id : String
  image_path : Option String
  image : Option String
  analysis_request : AnalysisRequestM
deriving DecidableEq

/-- `ValidationRequest::get_image_path`: `image_path` falling back to `image`. -/
def RequestM.getImagePath (r : RequestM) : Option String :=
  r.image_path.orElse (fun _ => r.image)

/-- `ProcessingRecord` from src/queue.rs; instants are naturals. -/
structure Rec where
  status : Status
  submitted_at : Nat
  started_at : Option Nat
  completed_at : Option Nat
  result : Option VResponse
deriving DecidableEq, Repr

/-- `ProcessingRecord::new` at instant `t`. -/
def Rec.new (t : Nat) : Rec :=
  { status := Status.accepted
    submitted_at := t
    started_at := none
    completed_at := none
    result := none }

/-- `ProcessingRecord::start_processing` at instant `t`. -/
def Rec.startProcessing (t : Nat) (r : Rec) : Rec :=
  { r with status := Status.inProgress, started_at := some t }

/-- `ProcessingRecord::complete_with_result` at instant `t`. -/
def Rec.completeWithResult (resp : VResponse) (t : Nat) (r : Rec) : Rec :=
  { r with status := Status.completed, completed_at := some t, result := some resp }

/-- `ProcessingRecord::fail` at instant `t`. -/
def Rec.failR (t : Nat) (r : Rec) : Rec :=
  { r with status := Status.failed, completed_at := some t }

/-- `ProcessingRecord::is_expired`: `submitted_at.elapsed() > timeout`,
with `elapsed` evaluated at instant `now` (truncated subtraction models the
saturating `Instant` arithmetic). -/
def Rec.isExpired (now timeout : Nat) (r : Rec) : Bool :=
  decide (now - r.submitted_at > timeout)

/-- The record index `HashMap<String, ProcessingRecord>` as a function. -/
def Index : Type := String → Option Rec

/-- `HashMap::insert`: bind `k` to `v`, replacing any previous binding. -/
def indexInsert (m : Index) (k : String) (v : Rec) : Index :=
  fun k' => if k' = k then some v else m k'

/-- `HashMap::get_mut` followed by a mutation `f`: the binding at `k` is
rewritten when present, and nothing happens when it is absent. -/
def indexUpdate (m : Index) (k : String) (f : Rec → Rec) : Index :=
  fun k' => if k' = k then (m k').map f else m k'

/-- The body of `ProcessingQueue::cleanup_task`'s sweep: `retain` keeps exactly
the records that are not expired at instant `now`. -/
def cleanupSweep (m : Index) (now timeout : Nat) : Index :=
  fun k => match m k with
    | none => none
    | some r => if r.isExpired now timeout then none else some r

deriving instance DecidableEq for Except

/-- `QueueError` from src/queue.rs (note: there is no AlreadyExists variant). -/
inductive QueueErrM where
  | queueFull
  | queueClosed
  | notFoundE
  | internalE (s : String)
deriving DecidableEq, Repr

/-- The pipeline state: the record index, the bounded channel's pending items
in FIFO order, the id of the request the worker currently holds between its
two index updates, and whether the channel is closed. -/
structure QState where
  index : Index
  queue : List RequestM
  current : Option String
  closed : Bool

/-- The initial pipeline state built by `ProcessingQueue::new`. -/
def initState : QState :=
  { index := fun _ => none, queue := [], current := none, closed := false }

/-- `ProcessingQueue::submit_validation` at instant `t`.

The code first returns QueueClosed when `sender.is_closed()`, then inserts a
fresh ACCEPTED record into the index, then performs `sender.send`; a `send`
failure (the bounded tokio channel awaits while full and fails once the
receiver is gone) is mapped to `QueueError::QueueFull`. `sendOk` abstracts the
outcome of that `send`. There is no duplicate-id check and no rollback of the
insert on a failed send. -/
def submitStep (s : QState) (req : RequestM) (t : Nat) (sendOk : Bool) :
    Except QueueErrM Unit × QState :=
  if s.closed then (Except.error QueueErrM.queueClosed, s)
  else
    let idx := indexInsert s.index req.processing_id (Rec.new t)
    if sendOk then
      (Except.ok (), { s with index := idx, queue := s.queue ++ [req] })
    else
      (Except.error QueueErrM.queueFull, { s with index := idx })

/-- `ProcessingQueue::get_status`. -/
def getStatus (s : QState) (id : String) : Status :=
  match s.index id with
  | some r => r.status
  | none => Status.notFound

/-- `ProcessingQueue::get_result`. -/
def getResult (s : QState) (id : String) : Option VResponse :=
  (s.index id).bind (fun r => r.result)

/-- The first half of `ProcessingQueue::process_validation_request` together
with the worker's `recv`: the worker takes the front queue item and, under the
write lock, moves its record (when present) to IN_PROGRESS. -/
def workerStartStep (s : QState) (t : Nat) : QState :=
  match s.queue with
  | [] => s
  | req :: rest =>
      { s with
        queue := rest
        current := some req.processing_id
        index := indexUpdate s.index req.processing_id (Rec.startProcessing t) }

/-- The outcome of `timeout(processing_timeout, processor.validate_request(..))`:
`some res` for `Ok(Ok(res))`, `none` for a processor error or an elapsed
deadline (both of which call `record.fail()`). -/
def finishRecord (id : String) (outcome : Option VResults) (t : Nat) (r : Rec) : Rec :=
  match outcome with
  | some res => r.completeWithResult { processing_id := id, results := res } t
  | none => r.failR t

/-- The second half of `ProcessingQueue::process_validation_request`: after the
throttle permit and the validation call, the worker updates the record (when
still present) with the outcome and is done with the item. -/
def workerFinishStep (s : QState) (outcome : Option VResults) (t : Nat) : QState :=
  match s.current with
  | none => s
  | some id =>
      { s with
        current := none
        index := indexUpdate s.index id (finishRecord id outcome t) }

/-- One full `process_validation_request` for the front queue item: the
IN_PROGRESS update, then (unconditionally — the code has no early return when
the record is missing) the throttle-permit acquisition and the validation call
whose outcome is `outcome`, then the final record update. -/
def workerProcessStep (s : QState) (outcome : Option VResults) (t1 t2 : Nat) : QState :=
  workerFinishStep (workerStartStep s t1) outcome t2

/-- One sweep of `ProcessingQueue::cleanup_task` at instant `now`. -/
def cleanupStep (s : QState) (now timeout : Nat) : QState :=
  { s with index := cleanupSweep s.index now timeout }

/-- An interleaving step of the pipeline: a submission, either half of the
worker's processing of one item, or a reaper sweep. The worker halves are
separate steps because the index write lock is released between them. -/
inductive Step where
  | submit (req : RequestM) (t : Nat) (sendOk : Bool)
  | workerStart (t : Nat)
  | workerFinish (outcome : Option VResults) (t : Nat)
  | cleanup (now timeout : Nat)

/-- Run one step. -/
def stepRun (s : QState) : Step → QState
  | Step.submit req t sendOk => (submitStep s req t sendOk).2
  | Step.workerStart t => workerStartStep s t
  | Step.workerFinish outcome t => workerFinishStep s outcome t
  | Step.cleanup now timeout => cleanupStep s now timeout

/-- Run a list of steps in order. -/
def runTrace (s : QState) (tr : List Step) : QState :=
  tr.foldl stepRun s

/-- Number of submit steps for `id` in a trace. -/
def submitCount (id : String) : List Step → Nat
  | [] => 0
  | Step.submit req _ _ :: tr =>
      (if req.processing_id = id then 1 else 0) + submitCount id tr
  | _ :: tr => submitCount id tr

/-- Number of pending queue items for `id`. -/
def queueCount (id : String) (q : List RequestM) : Nat :=
  (q.filter (fun r => r.processing_id = id)).length

/-- The status transitions the specification allows between two adjacent
observations of the same record: stay put, ACCEPTED → IN_PROGRESS, or
IN_PROGRESS → (COMPLETED | FAILED). -/
def allowedNext (a b : Status) : Bool :=
  a = b ||
    (a = Status.accepted && b = Status.inProgress) ||
    (a = Status.inProgress && (b = Status.completed || b = Status.failed))

/-- `Config::throttle_interval` in nanoseconds:
`Duration::from_secs(60 / R as u64)` divides in whole seconds. -/
def throttleIntervalNs (r : Nat) : Nat :=
  60 / r * 1000000000

/-- The worker's post-job sleep in nanoseconds:
`Duration::from_secs(60) / R` divides with nanosecond precision, following the
checked_div algorithm of std `Duration` (whole-second quotient, then the
second remainder converted to nanoseconds and divided). -/
def workerSleepNs (r : Nat) : Nat :=
  60 / r * 1000000000 + 60 % r * 1000000000 / r

/-- The throttle-rate validation in `Config::validate`: R must be nonzero. -/
def throttleRateValid (r : Nat) : Bool :=
  decide (r ≠ 0)

/-- Rust `str::starts_with` on the character sequence. -/
def strStartsWith (s p : String) : Bool :=
  p.data.isPrefixOf s.data

/-- Rust `str::ends_with` on the character sequence. -/
def strEndsWith (s p : String) : Bool :=
  p.data.isSuffixOf s.data

/-- Drop the first `n` characters. -/
def strDrop (s : String) (n : Nat) : String :=
  String.mk (s.data.drop n)

/-- Drop the last `n` characters. -/
def strDropRight (s : String) (n : Nat) : String :=
  String.mk (s.data.take (s.data.length - n))

/-- Character count of a string. -/
def strLength (s : String) : Nat :=
  s.data.length

/-- The literal suffix handled by the custom datetime branch. -/
def z1Suffix : String := "Z+1"

/-- The offset substituted for the custom suffix. -/
def tzPlusOne : String := "+01:00"

/-- Error text for a field cardinality other than two. -/
def dtCardMsg : String := "Exactly two out of three fields (start, end, duration) must be provided"

/-- Error text for an explicit interval with end before start. -/
def dtEndMsg : String := "End time must be after start time"

/-- Error text of the unreachable match arm. -/
def dtComboMsg : String := "Invalid combination of fields provided"

/-- Error-text head for an unparsable datetime. -/
def dtParseMsgPre : String := "Invalid datetime format: "

/-- `trim_end_matches('Z')`: drop every trailing Z character. -/
def trimZright (s : String) : String :=
  String.mk ((s.data.reverse.dropWhile (fun c => c = 'Z')).reverse)

/-- The `parse_datetime` closure in `DateTimeConstraint::try_from`.

Timestamps are modelled as integers (seconds on an absolute axis); `P` stands
for chrono's `DateTime::parse_from_rfc3339`, which is external library code.
On a parse failure the code retries after rewriting a trailing Z+1 into the
offset +01:00 (first stripping any remaining trailing Z characters). -/
def parseDatetime (P : String → Option Int) (s : String) : Except String Int :=
  match P s with
  | some t => Except.ok t
  | none =>
    if strEndsWith s z1Suffix then
      let base := strDropRight s 3
      match P (trimZright base ++ tzPlusOne) with
      | some t => Except.ok t
      | none => Except.error (dtParseMsgPre ++ s)
    else
      match P s with
      | some t => Except.ok t
      | none => Except.error (dtParseMsgPre ++ s)

/-- `DateTimeConstraint` from src/models.rs. -/
structure DateTimeConstraintM where
  startTime : Int
  endTime : Int
deriving DecidableEq, Repr

/-- The `duration_minutes as i64` cast: a u64 reinterpreted as a signed
64-bit value, wrapping for values of 2^63 and above. -/
def asI64 (d : Nat) : Int :=
  if d < 2 ^ 63 then (d : Int) else (d : Int) - 2 ^ 64

/-- `DateTimeConstraint::try_from(DateTimeRequest)` from src/models.rs.

The duration arms call chrono's checked arithmetic, which can abort the
computation instead of returning: `Duration::minutes(m)` panics when `m`
exceeds the TimeDelta minute bound, and the subsequent `start + duration`
(resp. `end - duration`) panics when the shifted datetime leaves chrono's
representable range. Both conditions are chrono library behaviour, so they
are parameters: `minutesOk m` stands for `TimeDelta::try_minutes(m).is_some()`
and `shiftOk t s` for the shift of instant `t` by `s` seconds staying in
range (`checked_add_signed` returning `Some`). A result of `none` models the
panic; when chrono succeeds, its arithmetic is exact, so the produced
endpoints are the exact sums. `Duration::minutes(m)` is `60 * m` seconds and
is evaluated before the shift, as in the code. -/
def tryFromDT (P : String → Option Int) (minutesOk : Int → Bool)
    (shiftOk : Int → Int → Bool) (r : DateTimeRequestM) :
    Option (Except String DateTimeConstraintM) :=
  let fieldCount := ([r.start.isSome, r.endT.isSome, r.duration.isSome].filter (fun b => b)).length
  if fieldCount ≠ 2 then some (Except.error dtCardMsg)
  else
    match r.start, r.endT, r.duration with
    | some ss, some es, none =>
        match parseDatetime P ss with
        | Except.error e => some (Except.error e)
        | Except.ok st =>
          match parseDatetime P es with
          | Except.error e => some (Except.error e)
          | Except.ok en =>
            if en ≤ st then some (Except.error dtEndMsg)
            else some (Except.ok { startTime := st, endTime := en })
    | some ss, none, some d =>
        match parseDatetime P ss with
        | Except.error e => some (Except.error e)
        | Except.ok st =>
            if minutesOk (asI64 d) then
              if shiftOk st (60 * asI64 d) then
                some (Except.ok { startTime := st, endTime := st + 60 * asI64 d })
              else none
            else none
    | none, some es, some d =>
        match parseDatetime P es with
        | Except.error e => some (Except.error e)
        | Except.ok en =>
            if minutesOk (asI64 d) then
              if shiftOk en (-(60 * asI64 d)) then
                some (Except.ok { startTime := en - 60 * asI64 d, endTime := en })
              else none
            else none
    | _, _, _ => some (Except.error dtComboMsg)

/-- `DateTimeConstraint::try_from` restricted to executions in which chrono's
duration arithmetic succeeds: `tryFromDT` with both chrono predicates
constantly true (`tryFromDT_all_checks_true` below strips the `some`). The
pipeline-level model uses this variant; no pipeline claim exercises an
out-of-bounds duration. -/
def tryFromDTTotal (P : String → Option Int) (r : DateTimeRequestM) :
    Except String DateTimeConstraintM :=
  let fieldCount := ([r.start.isSome, r.endT.isSome, r.duration.isSome].filter (fun b => b)).length
  if fieldCount ≠ 2 then Except.error dtCardMsg
  else
    match r.start, r.endT, r.duration with
    | some ss, some es, none =>
        match parseDatetime P ss with
        | Except.error e => Except.error e
        | Except.ok st =>
          match parseDatetime P es with
          | Except.error e => Except.error e
          | Except.ok en =>
            if en ≤ st then Except.error dtEndMsg
            else Except.ok { startTime := st, endTime := en }
    | some ss, none, some d =>
        match parseDatetime P ss with
        | Except.error e => Except.error e
        | Except.ok st => Except.ok { startTime := st, endTime := st + 60 * asI64 d }
    | none, some es, some d =>
        match parseDatetime P es with
        | Except.error e => Except.error e
        | Except.ok en => Except.ok { startTime := en - 60 * asI64 d, endTime := en }
    | _, _, _ => Except.error dtComboMsg

/-- With both chrono predicates constantly true, `tryFromDT` never reaches a
panic arm and agrees with `tryFromDTTotal`. -/
theorem tryFromDT_all_checks_true (P : String → Option Int) (r : DateTimeRequestM) :
    tryFromDT P (fun _ => true) (fun _ _ => true) r = some (tryFromDTTotal P r) := by
  obtain ⟨s1, e1, d1⟩ := r
  cases s1 with
  | none =>
      cases e1 with
      | none => cases d1 <;> rfl
      | some es =>
          cases d1 with
          | none => rfl
          | some d =>
              simp only [tryFromDT, tryFromDTTotal]
              cases hp : parseDatetime P es with
              | error e => simp [hp]
              | ok en => simp [hp]
  | some ss =>
      cases e1 with
      | none =>
          cases d1 with
          | none => rfl
          | some d =>
              simp only [tryFromDT, tryFromDTTotal]
              cases hp : parseDatetime P ss with
              | error e => simp [hp]
              | ok st => simp [hp]
      | some es =>
          cases d1 with
          | some d => rfl
          | none =>
              simp only [tryFromDT, tryFromDTTotal]
              cases hp1 : parseDatetime P ss with
              | error e => simp [hp1]
              | ok st =>
                  cases hp2 : parseDatetime P es with
                  | error e => simp [hp1, hp2]
                  | ok en =>
                      simp only [hp1, hp2]
                      by_cases hle : en ≤ st <;> simp [hle]

/-- `LocationConstraint` from src/models.rs. -/
structure LocationConstraintM where
  maxDistanceMeters : ℚ
  latitude : ℚ
  longitude : ℚ
deriving DecidableEq

/-- `From<LocationRequest> for LocationConstraint`. -/
def locationFromRequest (r : LocationRequestM) : LocationConstraintM :=
  { maxDistanceMeters := r.max_distance, latitude := r.lat, longitude := r.long }

/-- `ValidationContext` from src/models.rs. -/
structure ValidationContextM where
  contentCheck : String
  locationConstraint : Option LocationConstraintM
  datetimeConstraint : Option DateTimeConstraintM
deriving DecidableEq

/-- `ValidationContext::try_from(AnalysisRequest)` from src/models.rs. -/
def tryFromAnalysis (P : String → Option Int) (a : AnalysisRequestM) :
    Except String ValidationContextM :=
  match a.datetime with
  | some dr =>
      match tryFromDTTotal P dr with
      | Except.error e => Except.error e
      | Except.ok c =>
          Except.ok
            { contentCheck := a.content
              locationConstraint := a.location.map locationFromRequest
              datetimeConstraint := some c }
  | none =>
      Except.ok
        { contentCheck := a.content
          locationConstraint := a.location.map locationFromRequest
          datetimeConstraint := none }

/-- Error-text pieces of `validate_location` from src/utils.rs; the numeric
value is rendered by the float formatter `fm`. -/
def latErrHead : String := "Invalid latitude: "

/-- Error-text tail for the latitude range check of `validate_location`. -/
def latErrTail : String := " (must be between -90 and 90)"

/-- Error-text head for the longitude range check of `validate_location`. -/
def lonErrHead : String := "Invalid longitude: "

/-- Error-text tail for the longitude range check of `validate_location`. -/
def lonErrTail : String := " (must be between -180 and 180)"

/-- `validate_location` from src/utils.rs lines 30-51.

`fm` renders an f64 as Rust's format! does; `dist` is `haversine_distance`
(external float computation). The range tests are the negations of Rust's
`(-90.0..=90.0).contains` and `(-180.0..=180.0).contains`. There is no (0,0)
test in this function: in-range coordinates go straight to the distance
comparison. -/
def validateLocation (fm : ℚ → String) (dist : ℚ × ℚ → ℚ × ℚ → ℚ)
    (coords : ℚ × ℚ) (c : LocationConstraintM) : Except String Bool :=
  let lat := coords.1
  let lon := coords.2
  if lat < -90 ∨ 90 < lat then
    Except.error (latErrHead ++ fm lat ++ latErrTail)
  else if lon < -180 ∨ 180 < lon then
    Except.error (lonErrHead ++ fm lon ++ lonErrTail)
  else
    Except.ok (decide (dist coords (c.latitude, c.longitude) ≤ c.maxDistanceMeters))

/-- Error-text tail for the latitude range check of `validate_coordinates`. -/
def vcLatTail : String := " is out of valid range (-90 to 90)"

/-- Error-text head for the latitude range check of `validate_coordinates`. -/
def vcLatHead : String := "Latitude "

/-- Error-text head for the longitude range check of `validate_coordinates`. -/
def vcLonHead : String := "Longitude "

/-- Error-text tail for the longitude range check of `validate_coordinates`. -/
def vcLonTail : String := " is out of valid range (-180 to 180)"

/-- Error text for the suspect-missing (0,0) check of `validate_coordinates`. -/
def vcZeroMsg : String := "Coordinates (0,0) may indicate missing or invalid GPS data"

/-- `validate_coordinates` from src/utils.rs lines 83-102: range checks, then
the (0,0) suspect-missing check. (The repository's pipeline never calls this
function; only its unit tests do.) -/
def validateCoordinates (fm : ℚ → String) (coords : ℚ × ℚ) : Except String Unit :=
  let lat := coords.1
  let lon := coords.2
  if lat < -90 ∨ 90 < lat then
    Except.error (vcLatHead ++ fm lat ++ vcLatTail)
  else if lon < -180 ∨ 180 < lon then
    Except.error (vcLonHead ++ fm lon ++ vcLonTail)
  else if lat = 0 ∧ lon = 0 then
    Except.error vcZeroMsg
  else
    Except.ok ()

/-- Reason text when EXIF carries no GPS coordinates. -/
def noGpsMsg : String := "image does not contain GPS coordinates"

/-- Reason-text head when `validate_location` returns an error. -/
def locErrPre : String := "location validation error: "

/-- The location branch of `ValidationProcessor::extract_and_validate_metadata`
(src/validation/processor.rs lines 185-220), producing the location verdict
and its contribution to the reasons list. `tooFarMsg` renders the
distance-exceeded message (built in the code from `coords_to_string` and
`format_distance` over floats). -/
def locationMetaCheck (fm : ℚ → String) (dist : ℚ × ℚ → ℚ × ℚ → ℚ)
    (tooFarMsg : ℚ × ℚ → LocationConstraintM → ℚ → String)
    (gps : Option (ℚ × ℚ)) (lc : Option LocationConstraintM) : Bool × List String :=
  match lc with
  | some c =>
    match gps with
    | some coords =>
      match validateLocation fm dist coords c with
      | Except.ok valid =>
          if valid then (true, [])
          else (false, [tooFarMsg coords c (dist coords (c.latitude, c.longitude))])
      | Except.error e => (false, [locErrPre ++ e])
    | none => (false, [noGpsMsg])
  | none => (true, [])

/-- `ProcessorError` from src/validation/processor.rs. -/
inductive ProcErrM where
  | imageNotFound (s : String)
  | exifErr (s : String)
  | llmErr (s : String)
  | configErr (s : String)
  | validationContext (s : String)
  | internalErr (s : String)
deriving DecidableEq, Repr

/-- The thiserror display strings of `ProcessorError`. -/
def procErrText : ProcErrM → String
  | ProcErrM.imageNotFound s => "Image file not found: " ++ s
  | ProcErrM.exifErr s => "EXIF processing error: " ++ s
  | ProcErrM.llmErr s => "LLM processing error: " ++ s
  | ProcErrM.configErr s => "Configuration error: " ++ s
  | ProcErrM.validationContext s => "Validation context error: " ++ s
  | ProcErrM.internalErr s => "Internal error: " ++ s

/-- Error text when a request carries no image reference at all. -/
def noPathMsg : String := "no image path provided"

/-- The path separator literal. -/
def slashStr : String := "/"

/-- The base-directory alias literal. -/
def baseAlias : String := "$image_base_dir/"

/-- `ValidationProcessor::resolve_image_path`. -/
def resolveImagePath (baseDir : String) (req : RequestM) : Except ProcErrM String :=
  match req.getImagePath with
  | none => Except.error (ProcErrM.imageNotFound noPathMsg)
  | some p =>
    if strStartsWith p slashStr then Except.ok p
    else if strStartsWith p baseAlias then
      Except.ok (baseDir ++ slashStr ++ strDrop p (strLength baseAlias))
    else Except.ok (baseDir ++ slashStr ++ p)

/-- The tuple produced by `perform_parallel_validation`. -/
structure ParOutcome where
  contentValid : Bool
  locationValid : Bool
  datetimeValid : Bool
  reasons : List String
deriving DecidableEq

/-- Reason string for a missing image file. -/
def cannotLocateMsg : String := "cannot locate image"

/-- Reason-text head for a processor-level validation error. -/
def valErrPre : String := "validation error: "

/-- `ValidationProcessor::validate_request` (src/validation/processor.rs lines
47-105): resolve the image path, normalize the analysis request, early-return
a rejected result when the file is absent, otherwise aggregate the outcome of
`perform_parallel_validation`. `fileAt` is the filesystem's `Path::exists`;
`par` is the parallel validation (throttled VLM call plus EXIF checks), whose
outcome the code folds into an Ok result even when it is an error. -/
def validateRequest (P : String → Option Int) (fileAt : String → Bool)
    (baseDir : String)
    (par : String → ValidationContextM → Except ProcErrM ParOutcome)
    (req : RequestM) : Except ProcErrM VResults :=
  match resolveImagePath baseDir req with
  | Except.error e => Except.error e
  | Except.ok imagePath =>
    match tryFromAnalysis P req.analysis_request with
    | Except.error e => Except.error (ProcErrM.validationContext e)
    | Except.ok context =>
      if fileAt imagePath = false then
        Except.ok { resolution := Resolution.rejectedR, reasons := some [cannotLocateMsg] }
      else
        match par imagePath context with
        | Except.ok pr =>
            if pr.contentValid && pr.locationValid && pr.datetimeValid then
              Except.ok { resolution := Resolution.acceptedR, reasons := none }
            else
              Except.ok { resolution := Resolution.rejectedR, reasons := some pr.reasons }
        | Except.error e =>
            Except.ok
              { resolution := Resolution.rejectedR
                reasons := some [valErrPre ++ procErrText e] }

/-- Pointwise value of an insert at its own key. -/
theorem indexInsert_self (m : Index) (k : String) (v : Rec) :
    indexInsert m k v k = some v := by
  simp [indexInsert]

/-- Pointwise value of an insert at another key. -/
theorem indexInsert_other (m : Index) (k v k') (h : k' ≠ k) :
    indexInsert m k v k' = m k' := by
  simp [indexInsert, h]

/-- Pointwise value of a get_mut update at its own key. -/
theorem indexUpdate_self (m : Index) (k : String) (f : Rec → Rec) :
    indexUpdate m k f k = (m k).map f := by
  simp [indexUpdate]

/-- Pointwise value of a get_mut update at another key. -/
theorem indexUpdate_other (m : Index) (k : String) (f : Rec → Rec) (k' : String)
    (h : k' ≠ k) : indexUpdate m k f k' = m k' := by
  simp [indexUpdate, h]

/-- Pointwise behaviour of the reaper sweep. -/
theorem cleanupSweep_apply (m : Index) (now timeout : Nat) (k : String) :
    cleanupSweep m now timeout k =
      match m k with
      | none => none
      | some r => if r.isExpired now timeout then none else some r := rfl

/-- Queue occupancy of an id: items in the channel plus the item the worker
currently holds. -/
def curInd (id : String) (cur : Option String) : Nat :=
  if cur = some id then 1 else 0

/-- Unfolding lemma for `queueCount` on a cons cell. -/
theorem queueCount_cons (id : String) (r : RequestM) (q : List RequestM) :
    queueCount id (r :: q) =
      (if r.processing_id = id then 1 else 0) + queueCount id q := by
  by_cases h : r.processing_id = id <;>
    simp [queueCount, List.filter_cons, h] <;> omega

/-- Unfolding lemma for `queueCount` on an appended element. -/
theorem queueCount_append_one (id : String) (q : List RequestM) (r : RequestM) :
    queueCount id (q ++ [r]) =
      queueCount id q + (if r.processing_id = id then 1 else 0) := by
  by_cases h : r.processing_id = id <;>
    simp [queueCount, List.filter_append, List.filter_cons, h]

/-- Whether a step is a submission for `id`. -/
def isSubmitOf (id : String) : Step → Bool
  | Step.submit req _ _ => decide (req.processing_id = id)
  | _ => false

/-- `submitCount` distributes over append. -/
theorem submitCount_append (id : String) (l1 l2 : List Step) :
    submitCount id (l1 ++ l2) = submitCount id l1 + submitCount id l2 := by
  induction l1 with
  | nil => simp [submitCount]
  | cons st l ih => cases st <;> simp [submitCount, ih] <;> omega

/-- `runTrace` distributes over append. -/
theorem runTrace_append (s : QState) (l1 l2 : List Step) :
    runTrace s (l1 ++ l2) = runTrace (runTrace s l1) l2 := by
  simp [runTrace, List.foldl_append]

/-- `allowedNext` is reflexive. -/
theorem allowedNext_refl (a : Status) : allowedNext a a = true := by
  cases a <;> rfl

/-- The per-id reachability invariant of the pipeline, relative to whether a
submission for `id` has occurred (`submitted`). It packages: ids appear at
most once across the channel and the worker's hands, a record the worker
currently holds is IN_PROGRESS, a record with a pending queue item is still
ACCEPTED, and a record's result is present exactly when it is COMPLETED. -/
structure QInv (id : String) (submitted : Bool) (s : QState) : Prop where
  not_sub : submitted = false →
    s.index id = none ∧ queueCount id s.queue = 0 ∧ s.current ≠ some id
  occ_le : queueCount id s.queue + curInd id s.current ≤ 1
  cur_prog : s.current = some id →
    ∀ r, s.index id = some r → r.status = Status.inProgress
  queued_acc : 0 < queueCount id s.queue →
    ∀ r, s.index id = some r → r.status = Status.accepted
  res_iff : ∀ r, s.index id = some r →
    (r.result.isSome = true ↔ r.status = Status.completed)

/-- The invariant is monotone in the submitted flag. -/
theorem QInv.mono (id : String) (b x : Bool) (s : QState) (h : QInv id b s) :
    QInv id (b || x) s := by
  obtain ⟨hns, hocc, hcur, hqacc, hres⟩ := h
  refine ⟨?_, hocc, hcur, hqacc, hres⟩
  intro hbf
  exact hns (by simpa using (Bool.or_eq_false_iff.mp hbf).1)

/-- The invariant holds initially. -/
theorem qinv_init (id : String) : QInv id false initState := by
  refine ⟨fun _ => ⟨rfl, rfl, by simp [initState]⟩, ?_, ?_, ?_, ?_⟩
  · simp [initState, queueCount, curInd]
  · intro hc
    simp [initState] at hc
  · intro hqc
    simp [initState, queueCount] at hqc
  · intro r hr
    simp [initState] at hr

/-- Submission preserves the invariant, raising the submitted flag; a second
submission for the same id is excluded by `hb`. -/
theorem qinv_submit (id : String) (b : Bool) (s : QState) (req : RequestM)
    (t : Nat) (sendOk : Bool) (h : QInv id b s)
    (hb : req.processing_id = id → b = false) :
    QInv id (b || decide (req.processing_id = id)) (submitStep s req t sendOk).2 := by
  by_cases hc : s.closed
  · have hst : (submitStep s req t sendOk).2 = s := by simp [submitStep, hc]
    rw [hst]
    exact QInv.mono id b _ s h
  · by_cases hid : req.processing_id = id
    · have hbf : b = false := hb hid
      obtain ⟨hin, hqc, hcu⟩ := h.not_sub hbf
      have hci : curInd id s.current = 0 := by simp [curInd, hcu]
      by_cases hs : sendOk
      · have hst : (submitStep s req t sendOk).2 =
            { s with
              index := indexInsert s.index req.processing_id (Rec.new t)
              queue := s.queue ++ [req] } := by
          simp [submitStep, hc, hs]
        rw [hst]
        refine ⟨?_, ?_, ?_, ?_, ?_⟩
        · intro hbf2
          simp [hid] at hbf2
        · show queueCount id (s.queue ++ [req]) + curInd id s.current ≤ 1
          rw [queueCount_append_one, hqc, if_pos hid]
          omega
        · intro hcur2
          exact absurd hcur2 hcu
        · intro _ r hr
          rw [show ({ s with
                index := indexInsert s.index req.processing_id (Rec.new t)
                queue := s.queue ++ [req] } : QState).index =
              indexInsert s.index req.processing_id (Rec.new t) from rfl,
            hid, indexInsert_self] at hr
          cases hr
          rfl
        · intro r hr
          rw [show ({ s with
                index := indexInsert s.index req.processing_id (Rec.new t)
                queue := s.queue ++ [req] } : QState).index =
              indexInsert s.index req.processing_id (Rec.new t) from rfl,
            hid, indexInsert_self] at hr
          cases hr
          simp [Rec.new]
      · have hst : (submitStep s req t sendOk).2 =
            { s with index := indexInsert s.index req.processing_id (Rec.new t) } := by
          simp [submitStep, hc, hs]
        rw [hst]
        refine ⟨?_, ?_, ?_, ?_, ?_⟩
        · intro hbf2
          simp [hid] at hbf2
        · show queueCount id s.queue + curInd id s.current ≤ 1
          omega
        · intro hcur2
          exact absurd hcur2 hcu
        · intro hpos
          rw [hqc] at hpos
          omega
        · intro r hr
          rw [show ({ s with
                index := indexInsert s.index req.processing_id (Rec.new t) } : QState).index =
              indexInsert s.index req.processing_id (Rec.new t) from rfl,
            hid, indexInsert_self] at hr
          cases hr
          simp [Rec.new]
    · have hflag : (b || decide (req.processing_id = id)) = b := by simp [hid]
      rw [hflag]
      have hne : id ≠ req.processing_id := fun hcon => hid hcon.symm
      by_cases hs : sendOk
      · have hst : (submitStep s req t sendOk).2 =
            { s with
              index := indexInsert s.index req.processing_id (Rec.new t)
              queue := s.queue ++ [req] } := by
          simp [submitStep, hc, hs]
        rw [hst]
        have hidx : indexInsert s.index req.processing_id (Rec.new t) id = s.index id :=
          indexInsert_other _ _ _ _ hne
        have hqeq : queueCount id (s.queue ++ [req]) = queueCount id s.queue := by
          rw [queueCount_append_one, if_neg hid]
          omega
        refine ⟨?_, ?_, ?_, ?_, ?_⟩
        · intro hbf
          obtain ⟨hi, hq, hcu⟩ := h.not_sub hbf
          exact ⟨by rw [show ({ s with
              index := indexInsert s.index req.processing_id (Rec.new t)
              queue := s.queue ++ [req] } : QState).index =
              indexInsert s.index req.processing_id (Rec.new t) from rfl, hidx, hi],
            by rw [show ({ s with
              index := indexInsert s.index req.processing_id (Rec.new t)
              queue := s.queue ++ [req] } : QState).queue = s.queue ++ [req] from rfl,
              hqeq, hq], hcu⟩
        · show queueCount id (s.queue ++ [req]) + curInd id s.current ≤ 1
          rw [hqeq]
          exact h.occ_le
        · intro hcur2 r hr
          rw [show ({ s with
              index := indexInsert s.index req.processing_id (Rec.new t)
              queue := s.queue ++ [req] } : QState).index =
              indexInsert s.index req.processing_id (Rec.new t) from rfl, hidx] at hr
          exact h.cur_prog hcur2 r hr
        · intro hpos r hr
          rw [show ({ s with
              index := indexInsert s.index req.processing_id (Rec.new t)
              queue := s.queue ++ [req] } : QState).index =
              indexInsert s.index req.processing_id (Rec.new t) from rfl, hidx] at hr
          rw [show ({ s with
              index := indexInsert s.index req.processing_id (Rec.new t)
              queue := s.queue ++ [req] } : QState).queue = s.queue ++ [req] from rfl,
            hqeq] at hpos
          exact h.queued_acc hpos r hr
        · intro r hr
          rw [show ({ s with
              index := indexInsert s.index req.processing_id (Rec.new t)
              queue := s.queue ++ [req] } : QState).index =
              indexInsert s.index req.processing_id (Rec.new t) from rfl, hidx] at hr
          exact h.res_iff r hr
      · have hst : (submitStep s req t sendOk).2 =
            { s with index := indexInsert s.index req.processing_id (Rec.new t) } := by
          simp [submitStep, hc, hs]
        rw [hst]
        have hidx : indexInsert s.index req.processing_id (Rec.new t) id = s.index id :=
          indexInsert_other _ _ _ _ hne
        refine ⟨?_, ?_, ?_, ?_, ?_⟩
        · intro hbf
          obtain ⟨hi, hq, hcu⟩ := h.not_sub hbf
          exact ⟨by rw [show ({ s with
              index := indexInsert s.index req.processing_id (Rec.new t) } : QState).index =
              indexInsert s.index req.processing_id (Rec.new t) from rfl, hidx, hi], hq, hcu⟩
        · exact h.occ_le
        · intro hcur2 r hr
          rw [show ({ s with
              index := indexInsert s.index req.processing_id (Rec.new t) } : QState).index =
              indexInsert s.index req.processing_id (Rec.new t) from rfl, hidx] at hr
          exact h.cur_prog hcur2 r hr
        · intro hpos r hr
          rw [show ({ s with
              index := indexInsert s.index req.processing_id (Rec.new t) } : QState).index =
              indexInsert s.index req.processing_id (Rec.new t) from rfl, hidx] at hr
          exact h.queued_acc hpos r hr
        · intro r hr
          rw [show ({ s with
              index := indexInsert s.index req.processing_id (Rec.new t) } : QState).index =
              indexInsert s.index req.processing_id (Rec.new t) from rfl, hidx] at hr
          exact h.res_iff r hr

/-- The worker's dequeue-and-start half preserves the invariant. -/
theorem qinv_start (id : String) (b : Bool) (s : QState) (t : Nat)
    (h : QInv id b s) : QInv id b (workerStartStep s t) := by
  cases hq : s.queue with
  | nil =>
      have hst : workerStartStep s t = s := by simp [workerStartStep, hq]
      rw [hst]
      exact h
  | cons req rest =>
      have hst : workerStartStep s t =
          { s with
            queue := rest
            current := some req.processing_id
            index := indexUpdate s.index req.processing_id (Rec.startProcessing t) } := by
        simp [workerStartStep, hq]
      rw [hst]
      by_cases hid : req.processing_id = id
      · have hqc : queueCount id s.queue = 1 + queueCount id rest := by
          rw [hq, queueCount_cons, if_pos hid]
        have hocc := h.occ_le
        have hrest0 : queueCount id rest = 0 := by omega
        refine ⟨?_, ?_, ?_, ?_, ?_⟩
        · intro hbf
          obtain ⟨_, hq0, _⟩ := h.not_sub hbf
          rw [hqc] at hq0
          omega
        · show queueCount id rest + curInd id (some req.processing_id) ≤ 1
          have hci : curInd id (some req.processing_id) = 1 := by simp [curInd, hid]
          omega
        · intro _ r hr
          have hr' : indexUpdate s.index req.processing_id (Rec.startProcessing t) id =
              some r := hr
          rw [hid, indexUpdate_self] at hr'
          cases hsi : s.index id with
          | none => rw [hsi] at hr'; cases hr'
          | some r0 =>
              rw [hsi] at hr'
              cases hr'
              rfl
        · intro hpos
          have hpos' : (0 : Nat) < queueCount id rest := hpos
          rw [hrest0] at hpos'
          exact absurd hpos' (lt_irrefl 0)
        · intro r hr
          have hr' : indexUpdate s.index req.processing_id (Rec.startProcessing t) id =
              some r := hr
          rw [hid, indexUpdate_self] at hr'
          cases hsi : s.index id with
          | none => rw [hsi] at hr'; cases hr'
          | some r0 =>
              rw [hsi] at hr'
              cases hr'
              have hacc : r0.status = Status.accepted :=
                h.queued_acc (by omega) r0 hsi
              have hiff := h.res_iff r0 hsi
              rw [hacc] at hiff
              have hisf : r0.result.isSome = false := by
                rcases Bool.eq_false_or_eq_true r0.result.isSome with ht | hf
                · exact absurd (hiff.mp ht) (by decide)
                · exact hf
              simp [Rec.startProcessing, hisf]
      · have hqeq : queueCount id s.queue = queueCount id rest := by
          rw [hq, queueCount_cons, if_neg hid]
          omega
        have hidx : indexUpdate s.index req.processing_id (Rec.startProcessing t) id =
            s.index id :=
          indexUpdate_other _ _ _ _ (fun hcon => hid hcon.symm)
        have hcin : curInd id (some req.processing_id) = 0 := by
          simp [curInd, hid]
        refine ⟨?_, ?_, ?_, ?_, ?_⟩
        · intro hbf
          obtain ⟨hi, hq0, _⟩ := h.not_sub hbf
          refine ⟨hidx.trans hi, by rw [← hqeq]; exact hq0, ?_⟩
          intro hcon
          exact hid (Option.some.inj hcon)
        · show queueCount id rest + curInd id (some req.processing_id) ≤ 1
          have hle := h.occ_le
          rw [hqeq] at hle
          omega
        · intro hcur2 r hr
          exact absurd (Option.some.inj hcur2) hid
        · intro hpos r hr
          have hr' : indexUpdate s.index req.processing_id (Rec.startProcessing t) id =
              some r := hr
          rw [hidx] at hr'
          exact h.queued_acc (by rw [hqeq]; exact hpos) r hr'
        · intro r hr
          have hr' : indexUpdate s.index req.processing_id (Rec.startProcessing t) id =
              some r := hr
          rw [hidx] at hr'
          exact h.res_iff r hr'

/-- The worker's finish half preserves the invariant. -/
theorem qinv_finish (id : String) (b : Bool) (s : QState)
    (outcome : Option VResults) (t : Nat) (h : QInv id b s) :
    QInv id b (workerFinishStep s outcome t) := by
  cases hcu : s.current with
  | none =>
      have hst : workerFinishStep s outcome t = s := by simp [workerFinishStep, hcu]
      rw [hst]
      exact h
  | some cid =>
      have hst : workerFinishStep s outcome t =
          { s with
            current := none
            index := indexUpdate s.index cid (finishRecord cid outcome t) } := by
        simp [workerFinishStep, hcu]
      rw [hst]
      by_cases hid : cid = id
      · have hcuid : s.current = some id := by rw [hcu, hid]
        have hci : curInd id s.current = 1 := by simp [curInd, hcuid]
        have hq0 : queueCount id s.queue = 0 := by
          have hle := h.occ_le
          omega
        refine ⟨?_, ?_, ?_, ?_, ?_⟩
        · intro hbf
          obtain ⟨_, _, hcu2⟩ := h.not_sub hbf
          exact absurd hcuid hcu2
        · show queueCount id s.queue + curInd id (none : Option String) ≤ 1
          have hzn : curInd id (none : Option String) = 0 := by simp [curInd]
          omega
        · intro hcur2
          cases hcur2
        · intro hpos
          have hpos' : (0 : Nat) < queueCount id s.queue := hpos
          rw [hq0] at hpos'
          exact absurd hpos' (lt_irrefl 0)
        · intro r hr
          have hr' : indexUpdate s.index cid (finishRecord cid outcome t) id = some r := hr
          rw [hid, indexUpdate_self] at hr'
          cases hsi : s.index id with
          | none => rw [hsi] at hr'; cases hr'
          | some r0 =>
              rw [hsi] at hr'
              cases hr'
              have hip : r0.status = Status.inProgress := h.cur_prog hcuid r0 hsi
              have hiff := h.res_iff r0 hsi
              rw [hip] at hiff
              have hisf : r0.result.isSome = false := by
                rcases Bool.eq_false_or_eq_true r0.result.isSome with ht | hf
                · exact absurd (hiff.mp ht) (by decide)
                · exact hf
              cases outcome with
              | some res => simp [finishRecord, Rec.completeWithResult]
              | none => simp [finishRecord, Rec.failR, hisf]
      · have hidx : indexUpdate s.index cid (finishRecord cid outcome t) id = s.index id :=
          indexUpdate_other _ _ _ _ (fun hcon => hid hcon.symm)
        refine ⟨?_, ?_, ?_, ?_, ?_⟩
        · intro hbf
          obtain ⟨hi, hq0, _⟩ := h.not_sub hbf
          exact ⟨hidx.trans hi, hq0, by simp⟩
        · show queueCount id s.queue + curInd id (none : Option String) ≤ 1
          have hle := h.occ_le
          have hzn : curInd id (none : Option String) = 0 := by simp [curInd]
          omega
        · intro hcur2
          cases hcur2
        · intro hpos r hr
          have hr' : indexUpdate s.index cid (finishRecord cid outcome t) id = some r := hr
          rw [hidx] at hr'
          exact h.queued_acc hpos r hr'
        · intro r hr
          have hr' : indexUpdate s.index cid (finishRecord cid outcome t) id = some r := hr
          rw [hidx] at hr'
          exact h.res_iff r hr'

/-- The reaper sweep preserves the invariant. -/
theorem qinv_cleanup (id : String) (b : Bool) (s : QState) (now timeout : Nat)
    (h : QInv id b s) : QInv id b (cleanupStep s now timeout) := by
  have hsub : ∀ r, cleanupSweep s.index now timeout id = some r → s.index id = some r := by
    intro r hr
    rw [cleanupSweep_apply] at hr
    cases hsi : s.index id with
    | none => rw [hsi] at hr; cases hr
    | some r0 =>
        rw [hsi] at hr
        by_cases he : r0.isExpired now timeout = true
        · simp only [he, if_true] at hr
          cases hr
        · simp only [he, if_false] at hr
          cases hr
          rfl
  refine ⟨?_, ?_, ?_, ?_, ?_⟩
  · intro hbf
    obtain ⟨hi, hq0, hcu⟩ := h.not_sub hbf
    refine ⟨?_, hq0, hcu⟩
    show cleanupSweep s.index now timeout id = none
    rw [cleanupSweep_apply, hi]
  · exact h.occ_le
  · intro hcur2 r hr
    exact h.cur_prog hcur2 r (hsub r hr)
  · intro hpos r hr
    exact h.queued_acc hpos r (hsub r hr)
  · intro r hr
    exact h.res_iff r (hsub r hr)

/-- Every pipeline step preserves the invariant, raising the submitted flag on
a submission for `id`; the hypothesis `hb` says the step is not a second
submission for `id`. -/
theorem qinv_step (id : String) (b : Bool) (s : QState) (st : Step)
    (h : QInv id b s) (hb : isSubmitOf id st = true → b = false) :
    QInv id (b || isSubmitOf id st) (stepRun s st) := by
  cases st with
  | submit req t sendOk =>
      exact qinv_submit id b s req t sendOk h
        (fun hid => hb (by simp [isSubmitOf, hid]))
  | workerStart t =>
      simpa [isSubmitOf] using qinv_start id b s t h
  | workerFinish outcome t =>
      simpa [isSubmitOf] using qinv_finish id b s outcome t h
  | cleanup now timeout =>
      simpa [isSubmitOf] using qinv_cleanup id b s now timeout h

/-- Status evolution across a submission step. -/
theorem status_submit (id : String) (b : Bool) (s : QState) (req : RequestM)
    (t : Nat) (sendOk : Bool) (h : QInv id b s)
    (hb : req.processing_id = id → b = false) :
    (∀ r1 r2, s.index id = some r1 → (submitStep s req t sendOk).2.index id = some r2 →
      allowedNext r1.status r2.status = true) ∧
    (∀ r2, s.index id = none → (submitStep s req t sendOk).2.index id = some r2 →
      r2.status = Status.accepted) := by
  by_cases hc : s.closed
  · have hst : (submitStep s req t sendOk).2 = s := by simp [submitStep, hc]
    rw [hst]
    constructor
    · intro r1 r2 hr1 hr2
      rw [hr1] at hr2
      cases hr2
      exact allowedNext_refl _
    · intro r2 hn hr2
      rw [hn] at hr2
      cases hr2
  · have hix : (submitStep s req t sendOk).2.index =
        indexInsert s.index req.processing_id (Rec.new t) := by
      by_cases hs : sendOk <;> simp [submitStep, hc, hs]
    rw [hix]
    by_cases hid : req.processing_id = id
    · have hbf : b = false := hb hid
      obtain ⟨hin, _, _⟩ := h.not_sub hbf
      constructor
      · intro r1 r2 hr1 hr2
        rw [hin] at hr1
        cases hr1
      · intro r2 hn hr2
        rw [hid, indexInsert_self] at hr2
        cases hr2
        rfl
    · have hne : id ≠ req.processing_id := fun hcon => hid hcon.symm
      rw [indexInsert_other _ _ _ _ hne]
      constructor
      · intro r1 r2 hr1 hr2
        rw [hr1] at hr2
        cases hr2
        exact allowedNext_refl _
      · intro r2 hn hr2
        rw [hn] at hr2
        cases hr2

/-- Status evolution across the worker's dequeue-and-start step. -/
theorem status_start (id : String) (b : Bool) (s : QState) (t : Nat)
    (h : QInv id b s) :
    (∀ r1 r2, s.index id = some r1 → (workerStartStep s t).index id = some r2 →
      allowedNext r1.status r2.status = true) ∧
    (∀ r2, s.index id = none → (workerStartStep s t).index id = some r2 →
      r2.status = Status.accepted) := by
  cases hq : s.queue with
  | nil =>
      have hst : workerStartStep s t = s := by simp [workerStartStep, hq]
      rw [hst]
      constructor
      · intro r1 r2 hr1 hr2
        rw [hr1] at hr2
        cases hr2
        exact allowedNext_refl _
      · intro r2 hn hr2
        rw [hn] at hr2
        cases hr2
  | cons req rest =>
      have hix : (workerStartStep s t).index =
          indexUpdate s.index req.processing_id (Rec.startProcessing t) := by
        simp [workerStartStep, hq]
      rw [hix]
      by_cases hid : req.processing_id = id
      · have hqc : queueCount id s.queue = 1 + queueCount id rest := by
          rw [hq, queueCount_cons, if_pos hid]
        constructor
        · intro r1 r2 hr1 hr2
          rw [hid, indexUpdate_self, hr1] at hr2
          cases hr2
          have hacc : r1.status = Status.accepted :=
            h.queued_acc (by omega) r1 hr1
          rw [hacc]
          rfl
        · intro r2 hn hr2
          rw [hid, indexUpdate_self, hn] at hr2
          cases hr2
      · have hne : id ≠ req.processing_id := fun hcon => hid hcon.symm
        rw [indexUpdate_other _ _ _ _ hne]
        constructor
        · intro r1 r2 hr1 hr2
          rw [hr1] at hr2
          cases hr2
          exact allowedNext_refl _
        · intro r2 hn hr2
          rw [hn] at hr2
          cases hr2

/-- Status evolution across the worker's finish step. -/
theorem status_finish (id : String) (b : Bool) (s : QState)
    (outcome : Option VResults) (t : Nat) (h : QInv id b s) :
    (∀ r1 r2, s.index id = some r1 → (workerFinishStep s outcome t).index id = some r2 →
      allowedNext r1.status r2.status = true) ∧
    (∀ r2, s.index id = none → (workerFinishStep s outcome t).index id = some r2 →
      r2.status = Status.accepted) := by
  cases hcu : s.current with
  | none =>
      have hst : workerFinishStep s outcome t = s := by simp [workerFinishStep, hcu]
      rw [hst]
      constructor
      · intro r1 r2 hr1 hr2
        rw [hr1] at hr2
        cases hr2
        exact allowedNext_refl _
      · intro r2 hn hr2
        rw [hn] at hr2
        cases hr2
  | some cid =>
      have hix : (workerFinishStep s outcome t).index =
          indexUpdate s.index cid (finishRecord cid outcome t) := by
        simp [workerFinishStep, hcu]
      rw [hix]
      by_cases hid : cid = id
      · have hcuid : s.current = some id := by rw [hcu, hid]
        constructor
        · intro r1 r2 hr1 hr2
          rw [hid, indexUpdate_self, hr1] at hr2
          cases hr2
          have hip : r1.status = Status.inProgress := h.cur_prog hcuid r1 hr1
          rw [hip]
          cases outcome with
          | some res => rfl
          | none => rfl
        · intro r2 hn hr2
          rw [hid, indexUpdate_self, hn] at hr2
          cases hr2
      · have hne : id ≠ cid := fun hcon => hid hcon.symm
        rw [indexUpdate_other _ _ _ _ hne]
        constructor
        · intro r1 r2 hr1 hr2
          rw [hr1] at hr2
          cases hr2
          exact allowedNext_refl _
        · intro r2 hn hr2
          rw [hn] at hr2
          cases hr2

/-- Status evolution across a reaper sweep. -/
theorem status_cleanup (id : String) (s : QState) (now timeout : Nat) :
    (∀ r1 r2, s.index id = some r1 → (cleanupStep s now timeout).index id = some r2 →
      allowedNext r1.status r2.status = true) ∧
    (∀ r2, s.index id = none → (cleanupStep s now timeout).index id = some r2 →
      r2.status = Status.accepted) := by
  constructor
  · intro r1 r2 hr1 hr2
    have hr2' : cleanupSweep s.index now timeout id = some r2 := hr2
    rw [cleanupSweep_apply, hr1] at hr2'
    by_cases he : r1.isExpired now timeout = true
    · simp only [he, if_true] at hr2'
      cases hr2'
    · simp only [he, if_false] at hr2'
      cases hr2'
      exact allowedNext_refl _
  · intro r2 hn hr2
    have hr2' : cleanupSweep s.index now timeout id = some r2 := hr2
    rw [cleanupSweep_apply, hn] at hr2'
    cases hr2'

/-- Status evolution across any pipeline step, provided the step is not a
second submission for `id`. -/
theorem status_step (id : String) (b : Bool) (s : QState) (st : Step)
    (h : QInv id b s) (hb : isSubmitOf id st = true → b = false) :
    (∀ r1 r2, s.index id = some r1 → (stepRun s st).index id = some r2 →
      allowedNext r1.status r2.status = true) ∧
    (∀ r2, s.index id = none → (stepRun s st).index id = some r2 →
      r2.status = Status.accepted) := by
  cases st with
  | submit req t sendOk =>
      exact status_submit id b s req t sendOk h
        (fun hid => hb (by simp [isSubmitOf, hid]))
  | workerStart t => exact status_start id b s t h
  | workerFinish outcome t => exact status_finish id b s outcome t h
  | cleanup now timeout => exact status_cleanup id s now timeout

/-- `submitCount` of a single step in terms of `isSubmitOf`. -/
theorem submitCount_singleton (id : String) (st : Step) :
    submitCount id [st] = (if isSubmitOf id st = true then 1 else 0) := by
  cases st with
  | submit req t sendOk =>
      by_cases hid : req.processing_id = id <;> simp [submitCount, isSubmitOf, hid]
  | workerStart t => simp [submitCount, isSubmitOf]
  | workerFinish outcome t => simp [submitCount, isSubmitOf]
  | cleanup now timeout => simp [submitCount, isSubmitOf]

/-- The invariant holds in every state reached by a trace that submits `id`
at most once. -/
theorem qinv_run (id : String) (tr : List Step) (h : submitCount id tr ≤ 1) :
    QInv id (decide (0 < submitCount id tr)) (runTrace initState tr) := by
  induction tr using List.reverseRecOn with
  | nil => simpa [submitCount, runTrace] using qinv_init id
  | append_singleton l st ih =>
      have hcnt : submitCount id (l ++ [st]) =
          submitCount id l + submitCount id [st] := submitCount_append id l [st]
      have hsing := submitCount_singleton id st
      have hle : submitCount id l ≤ 1 := by
        rw [hcnt] at h
        omega
      have hinv := ih hle
      rw [runTrace_append]
      have hone : runTrace (runTrace initState l) [st] =
          stepRun (runTrace initState l) st := rfl
      rw [hone]
      by_cases hio : isSubmitOf id st = true
      · have hz : submitCount id l = 0 := by
          rw [hcnt, hsing, if_pos hio] at h
          omega
        have hbf : decide (0 < submitCount id l) = false := by
          rw [hz]
          decide
        have hstep := qinv_step id _ (runTrace initState l) st hinv (fun _ => hbf)
        have hflag : (decide (0 < submitCount id l) || isSubmitOf id st) =
            decide (0 < submitCount id (l ++ [st])) := by
          rw [hbf, hio, hcnt, hsing, if_pos hio, hz]
          decide
        rw [hflag] at hstep
        exact hstep
      · have hio' : isSubmitOf id st = false := by
          rcases Bool.eq_false_or_eq_true (isSubmitOf id st) with ht | hf
          · exact absurd ht hio
          · exact hf
        have hstep := qinv_step id _ (runTrace initState l) st hinv
          (fun hcon => absurd hcon hio)
        have hflag : (decide (0 < submitCount id l) || isSubmitOf id st) =
            decide (0 < submitCount id (l ++ [st])) := by
          rw [hio', hcnt, hsing, if_neg hio]
          simp
        rw [hflag] at hstep
        exact hstep

/-- A concrete processing id used in counterexamples and witnesses. -/
def idA : String := "a"

/-- A minimal concrete validation request with id `idA`. -/
def reqA : RequestM :=
  { processing_id := idA
    image_path := none
    image := none
    analysis_request :=
      { image_path := none, content := "c", location := none, datetime := none } }

/-- A concrete accepted validation outcome. -/
def resOK : VResults := { resolution := Resolution.acceptedR, reasons := none }

/-- A trace that submits `idA` once and processes it to COMPLETED. -/
def traceC3 : List Step :=
  [Step.submit reqA 0 true, Step.workerStart 1, Step.workerFinish (some resOK) 2]

/-- A trace that submits `idA` twice; the worker completes the first item and
has started the second when the trace ends. -/
def traceC4 : List Step :=
  [Step.submit reqA 0 true, Step.submit reqA 1 true, Step.workerStart 2,
    Step.workerFinish (some resOK) 3, Step.workerStart 4]

/-- C1 (counterexample): on a fresh open queue, a submission whose channel
send fails returns QueueFull, yet the freshly inserted record for the id is
still in the index afterwards — the insert is not rolled back, refuting the
claim that the index is left as it was before the call. -/
theorem submit_send_failure_keeps_record_cex :
    (submitStep initState reqA 5 false).1 = Except.error QueueErrM.queueFull ∧
    (submitStep initState reqA 5 false).2.index idA = some (Rec.new 5) ∧
    initState.index idA = none := by
  decide

/-- C1 (amended): whenever the enqueue step of submit fails on an open queue,
submit returns QueueFull but the freshly inserted ACCEPTED record for the
request's id remains in the index (no rollback); every other record and the
pending queue are unchanged. -/
theorem submit_send_failure_no_rollback (s : QState) (req : RequestM) (t : Nat)
    (h : s.closed = false) :
    (submitStep s req t false).1 = Except.error QueueErrM.queueFull ∧
    (submitStep s req t false).2.index req.processing_id = some (Rec.new t) ∧
    (∀ k, k ≠ req.processing_id → (submitStep s req t false).2.index k = s.index k) ∧
    (submitStep s req t false).2.queue = s.queue := by
  have hst : submitStep s req t false =
      (Except.error QueueErrM.queueFull,
        { s with index := indexInsert s.index req.processing_id (Rec.new t) }) := by
    simp [submitStep, h]
  rw [hst]
  refine ⟨rfl, ?_, ?_, rfl⟩
  · exact indexInsert_self _ _ _
  · intro k hk
    exact indexInsert_other _ _ _ _ hk

/-- Witness for the amended C1 theorem at a concrete input. -/
theorem submit_send_failure_no_rollback_witness :
    (submitStep initState reqA 5 false).2.index reqA.processing_id =
      some (Rec.new 5) :=
  (submit_send_failure_no_rollback initState reqA 5 rfl).2.1

/-- C2 (counterexample): after `traceC3` the record for `idA` is COMPLETED;
resubmitting the same id succeeds (no AlreadyExists — `QueueError` has no such
variant) and replaces the record with a fresh ACCEPTED one, so the existing
record is disturbed and the id is re-initialized, refuting the claim. -/
theorem submit_duplicate_overwrites_cex :
    getStatus (runTrace initState traceC3) idA = Status.completed ∧
    (submitStep (runTrace initState traceC3) reqA 9 true).1 = Except.ok () ∧
    (submitStep (runTrace initState traceC3) reqA 9 true).2.index idA =
      some (Rec.new 9) := by
  decide

/-- C2 (amended): submit never checks the index for the id: on any open
queue, a submission unconditionally overwrites the record for its id with a
fresh ACCEPTED record and succeeds exactly when the channel send succeeds. -/
theorem submit_duplicate_overwrites (s : QState) (req : RequestM) (t : Nat)
    (sendOk : Bool) (h : s.closed = false) :
    (submitStep s req t sendOk).2.index req.processing_id = some (Rec.new t) ∧
    (submitStep s req t sendOk).1 =
      (if sendOk then Except.ok () else Except.error QueueErrM.queueFull) := by
  by_cases hs : sendOk
  · have hst : submitStep s req t sendOk =
        (Except.ok (),
          { s with
            index := indexInsert s.index req.processing_id (Rec.new t)
            queue := s.queue ++ [req] }) := by
      simp [submitStep, h, hs]
    rw [hst, if_pos hs]
    exact ⟨indexInsert_self _ _ _, rfl⟩
  · have hst : submitStep s req t sendOk =
        (Except.error QueueErrM.queueFull,
          { s with index := indexInsert s.index req.processing_id (Rec.new t) }) := by
      simp [submitStep, h, hs]
    rw [hst, if_neg hs]
    exact ⟨indexInsert_self _ _ _, rfl⟩

/-- Witness for the amended C2 theorem at a concrete input. -/
theorem submit_duplicate_overwrites_witness :
    (submitStep (runTrace initState traceC3) reqA 9 true).2.index
        reqA.processing_id = some (Rec.new 9) :=
  (submit_duplicate_overwrites (runTrace initState traceC3) reqA 9 true
    (by decide)).1

/-- C3 (counterexample): over the pipeline's own operations, the record for
`idA` reaches the terminal status COMPLETED and a later submit of the same id
moves it back to ACCEPTED — a back-transition out of a terminal state, which
the claimed status discipline forbids. -/
theorem status_back_transition_cex :
    getStatus (runTrace initState traceC3) idA = Status.completed ∧
    getStatus (runTrace initState (traceC3 ++ [Step.submit reqA 3 true])) idA =
      Status.accepted ∧
    allowedNext Status.completed Status.accepted = false := by
  decide

/-- C3 (amended): provided a processing id is submitted at most once, every
pipeline step moves its record along the claimed chain only: adjacent
observations are equal, ACCEPTED → IN_PROGRESS, or IN_PROGRESS → terminal
(so COMPLETED and FAILED are terminal and nothing moves backwards), and a
record is only ever created in status ACCEPTED. -/
theorem status_monotone_unique_submit (tr : List Step) (st : Step) (id : String)
    (h : submitCount id (tr ++ [st]) ≤ 1) :
    (∀ r1 r2, (runTrace initState tr).index id = some r1 →
      (runTrace initState (tr ++ [st])).index id = some r2 →
      allowedNext r1.status r2.status = true) ∧
    (∀ r2, (runTrace initState tr).index id = none →
      (runTrace initState (tr ++ [st])).index id = some r2 →
      r2.status = Status.accepted) := by
  have hle : submitCount id tr ≤ 1 := by
    rw [submitCount_append] at h
    omega
  have hinv := qinv_run id tr hle
  have hb : isSubmitOf id st = true → decide (0 < submitCount id tr) = false := by
    intro hio
    have hcnt := submitCount_append id tr [st]
    rw [submitCount_singleton, if_pos hio] at hcnt
    have hz : submitCount id tr = 0 := by omega
    rw [hz]
    decide
  have hstep := status_step id _ (runTrace initState tr) st hinv hb
  rw [runTrace_append]
  exact hstep

/-- Witness for the amended C3 theorem at a concrete input. -/
theorem status_monotone_unique_submit_witness :
    allowedNext (Rec.new 0).status (Rec.startProcessing 1 (Rec.new 0)).status =
      true :=
  (status_monotone_unique_submit [Step.submit reqA 0 true] (Step.workerStart 1)
      idA (by decide)).1 (Rec.new 0) (Rec.startProcessing 1 (Rec.new 0))
    (by decide) (by decide)

/-- C4 (counterexample): after `traceC4` (a duplicate submission of `idA`),
the record's status is IN_PROGRESS while `get_result` still returns the result
stored by the first completion — `Some` with a non-COMPLETED status, refuting
the claimed equivalence. -/
theorem result_status_decoupled_cex :
    getStatus (runTrace initState traceC4) idA = Status.inProgress ∧
    (getResult (runTrace initState traceC4) idA).isSome = true := by
  decide

/-- C4 (amended): provided a processing id is submitted at most once, in every
reachable state a record's result field is set exactly when its status is
COMPLETED, and `get_result` returns `Some` exactly when the current status of
the id is COMPLETED (in particular `None` for absent ids, since their status
reads NOT_FOUND). -/
theorem result_iff_completed_unique_submit (tr : List Step) (id : String)
    (h : submitCount id tr ≤ 1) :
    ((getResult (runTrace initState tr) id).isSome = true ↔
      getStatus (runTrace initState tr) id = Status.completed) ∧
    (∀ r, (runTrace initState tr).index id = some r →
      (r.result.isSome = true ↔ r.status = Status.completed)) := by
  have hinv := qinv_run id tr h
  constructor
  · cases hsi : (runTrace initState tr).index id with
    | none => simp [getResult, getStatus, hsi]
    | some r =>
        have hiff := hinv.res_iff r hsi
        simpa [getResult, getStatus, hsi] using hiff
  · exact hinv.res_iff

/-- Witness for the amended C4 theorem at a concrete input. -/
theorem result_iff_completed_unique_submit_witness :
    ((getResult (runTrace initState traceC3) idA).isSome = true ↔
      getStatus (runTrace initState traceC3) idA = Status.completed) :=
  (result_iff_completed_unique_submit traceC3 idA (by decide)).1

/-- A parser that recognizes exactly the string `sS`, mapping it to instant 0;
it stands in for the RFC-3339 parser in concrete evaluations. -/
def sS : String := "S"

/-- Concrete parser used in counterexamples and witnesses. -/
def parseOnlyS : String → Option Int :=
  fun s => if s = sS then some 0 else none

/-- The minute bound of chrono's TimeDelta: `Duration::minutes(m)` succeeds
exactly when `60 * m` seconds lies within plus or minus i64::MAX
milliseconds. Used to instantiate the `minutesOk` parameter at concrete
inputs; only its values at the small durations exercised below matter. -/
def minutesOkChrono : Int → Bool :=
  fun m => decide (-153722867280912 ≤ m ∧ m ≤ 153722867280912)

/-- A shift predicate that holds everywhere; it agrees with chrono's
datetime-shift check at every instant and offset exercised below. -/
def shiftOkAll : Int → Int → Bool := fun _ _ => true

/-- C5 (counterexample): with start provided and duration 0 — for which
chrono's duration construction and shift succeed — normalization succeeds and
produces a constraint with end equal to start, refuting the claim that every
successfully produced constraint satisfies end strictly after start; the
derived branches perform no such check. -/
theorem time_constraint_zero_duration_cex :
    tryFromDT parseOnlyS minutesOkChrono shiftOkAll
        { start := some sS, endT := none, duration := some 0 } =
      some (Except.ok { startTime := 0, endTime := 0 }) ∧
    ¬((0 : Int) < 0) := by
  constructor
  · decide
  · decide

/-- C5 (amended): normalization rejects any field cardinality other than two;
with explicit start and end it fails exactly when end is not after start and
otherwise returns the interval as parsed; with start and duration, when
chrono's duration construction and datetime shift succeed, it returns the
interval from start of length `60 * asI64 duration` seconds (the u64 minute
count reinterpreted as a signed 64-bit value) with no end-after-start check,
and symmetrically for end and duration; a duration whose minute count is out
of chrono's bounds makes the code panic instead of producing a constraint. -/
theorem time_constraint_normalization :
    (∀ (P : String → Option Int) (minutesOk : Int → Bool)
        (shiftOk : Int → Int → Bool) (r : DateTimeRequestM),
      ([r.start.isSome, r.endT.isSome, r.duration.isSome].filter (fun b => b)).length ≠ 2 →
      tryFromDT P minutesOk shiftOk r = some (Except.error dtCardMsg)) ∧
    (∀ (P : String → Option Int) (minutesOk : Int → Bool)
        (shiftOk : Int → Int → Bool) (ss es : String) (st en : Int),
      P ss = some st → P es = some en →
      tryFromDT P minutesOk shiftOk
          { start := some ss, endT := some es, duration := none } =
        some (if en ≤ st then Except.error dtEndMsg
          else Except.ok { startTime := st, endTime := en })) ∧
    (∀ (P : String → Option Int) (minutesOk : Int → Bool)
        (shiftOk : Int → Int → Bool) (ss : String) (st : Int) (d : Nat),
      P ss = some st → minutesOk (asI64 d) = true →
      shiftOk st (60 * asI64 d) = true →
      tryFromDT P minutesOk shiftOk
          { start := some ss, endT := none, duration := some d } =
        some (Except.ok { startTime := st, endTime := st + 60 * asI64 d })) ∧
    (∀ (P : String → Option Int) (minutesOk : Int → Bool)
        (shiftOk : Int → Int → Bool) (es : String) (en : Int) (d : Nat),
      P es = some en → minutesOk (asI64 d) = true →
      shiftOk en (-(60 * asI64 d)) = true →
      tryFromDT P minutesOk shiftOk
          { start := none, endT := some es, duration := some d } =
        some (Except.ok { startTime := en - 60 * asI64 d, endTime := en })) ∧
    (∀ (P : String → Option Int) (minutesOk : Int → Bool)
        (shiftOk : Int → Int → Bool) (ss : String) (st : Int) (d : Nat),
      P ss = some st → minutesOk (asI64 d) = false →
      tryFromDT P minutesOk shiftOk
          { start := some ss, endT := none, duration := some d } = none) := by
  refine ⟨?_, ?_, ?_, ?_, ?_⟩
  · intro P minutesOk shiftOk r h
    simp only [tryFromDT]
    rw [if_pos h]
  · intro P minutesOk shiftOk ss es st en h1 h2
    simp only [tryFromDT, parseDatetime, h1, h2]
    by_cases hle : en ≤ st <;> simp [hle]
  · intro P minutesOk shiftOk ss st d h1 hm hs
    simp [tryFromDT, parseDatetime, h1, hm, hs]
  · intro P minutesOk shiftOk es en d h1 hm hs
    simp [tryFromDT, parseDatetime, h1, hm, hs]
  · intro P minutesOk shiftOk ss st d h1 hm
    simp [tryFromDT, parseDatetime, h1, hm]

/-- Witness for the amended C5 theorem at a concrete input. -/
theorem time_constraint_normalization_witness :
    tryFromDT parseOnlyS minutesOkChrono shiftOkAll
        { start := some sS, endT := none, duration := some 10 } =
      some (Except.ok { startTime := 0, endTime := 0 + 60 * asI64 10 }) :=
  time_constraint_normalization.2.2.1 parseOnlyS minutesOkChrono shiftOkAll
    sS 0 10 (by decide) (by decide) rfl

/-- The empty string, used for irrelevant text parameters. -/
def emptyStr : String := ""

/-- A filesystem on which no path exists. -/
def fsNone : String → Bool := fun _ => false

/-- A parallel-validation stage that is never reached in the scenarios below. -/
def parNever : String → ValidationContextM → Except ProcErrM ParOutcome :=
  fun _ _ => Except.error (ProcErrM.internalErr emptyStr)

/-- A parser that accepts nothing. -/
def parseNone : String → Option Int := fun _ => none

/-- An absolute image path that does not exist on `fsNone`. -/
def slashXjpg : String := "/x.jpg"

/-- A request naming a nonexistent absolute image path, with an invalid
datetime constraint (no fields). -/
def reqBadDT : RequestM :=
  { processing_id := idA
    image_path := some slashXjpg
    image := none
    analysis_request :=
      { image_path := none
        content := "c"
        location := none
        datetime := some { start := none, endT := none, duration := none } } }

/-- A request naming a nonexistent absolute image path, with no constraints. -/
def reqGood : RequestM :=
  { processing_id := idA
    image_path := some slashXjpg
    image := none
    analysis_request :=
      { image_path := none, content := "c", location := none, datetime := none } }

/-- C6 (counterexample): a request whose resolved image path does not exist
but whose datetime constraint is malformed makes `validate_request` return an
error (which the pipeline turns into FAILED), not the rejected-with-reason
result: the context normalization runs before the existence check, refuting
the claim for such requests. -/
theorem missing_image_context_error_cex :
    validateRequest parseNone fsNone emptyStr parNever reqBadDT =
      Except.error (ProcErrM.validationContext dtCardMsg) ∧
    resolveImagePath emptyStr reqBadDT = Except.ok slashXjpg ∧
    fsNone slashXjpg = false := by
  refine ⟨?_, ?_, rfl⟩
  · decide
  · decide

/-- C6 (amended): for every request whose image path resolves and whose
analysis context normalizes successfully, if the resolved path does not exist
on the filesystem then `validate_request` returns the successful rejected
result with reasons exactly the cannot-locate-image string, never a processor
error. -/
theorem missing_image_rejected (P : String → Option Int)
    (fileAt : String → Bool) (baseDir : String)
    (par : String → ValidationContextM → Except ProcErrM ParOutcome)
    (req : RequestM) (path : String) (ctx : ValidationContextM)
    (hres : resolveImagePath baseDir req = Except.ok path)
    (hctx : tryFromAnalysis P req.analysis_request = Except.ok ctx)
    (hfile : fileAt path = false) :
    validateRequest P fileAt baseDir par req =
      Except.ok { resolution := Resolution.rejectedR
                  reasons := some [cannotLocateMsg] } := by
  simp [validateRequest, hres, hctx, hfile]

/-- Witness for the amended C6 theorem at a concrete input. -/
theorem missing_image_rejected_witness :
    validateRequest parseNone fsNone emptyStr parNever reqGood =
      Except.ok { resolution := Resolution.rejectedR
                  reasons := some [cannotLocateMsg] } :=
  missing_image_rejected parseNone fsNone emptyStr parNever reqGood slashXjpg
    { contentCheck := "c", locationConstraint := none, datetimeConstraint := none }
    (by decide) (by decide) rfl

/-- A float formatter whose output is irrelevant to the properties below. -/
def fmQ : ℚ → String := fun _ => emptyStr

/-- The Haversine distance instantiated at coinciding points, where it is
exactly 0; used to evaluate the location check on (0,0) against an expected
location of (0,0). -/
def distZero : ℚ × ℚ → ℚ × ℚ → ℚ := fun _ _ => 0

/-- A distance-exceeded message renderer, irrelevant to the properties below. -/
def tooFarNone : ℚ × ℚ → LocationConstraintM → ℚ → String := fun _ _ _ => emptyStr

/-- A location constraint centered at the origin with a 10 m radius. -/
def lcOrigin : LocationConstraintM :=
  { maxDistanceMeters := 10, latitude := 0, longitude := 0 }

/-- C7 (counterexample): with a location constraint present and EXIF GPS
coordinates exactly (0,0), the processor's location check passes — decided by
the distance comparison — instead of rejecting the coordinates as
suspect-missing; the pipeline never calls `validate_coordinates`, refuting
the claim. -/
theorem zero_coords_pass_location_check_cex :
    locationMetaCheck fmQ distZero tooFarNone (some (0, 0)) (some lcOrigin) =
      (true, []) ∧
    validateLocation fmQ distZero (0, 0) lcOrigin = Except.ok true := by
  constructor
  · decide
  · decide

/-- C7 (amended): the standalone `validate_coordinates` does reject (0,0) as
suspect-missing, but the location check the processor actually performs —
`validate_location` — only range-checks: any in-range coordinates, (0,0)
included, are decided solely by the distance comparison, while out-of-range
latitudes and longitudes are rejected. -/
theorem zero_coords_location_check :
    validateCoordinates fmQ (0, 0) = Except.error vcZeroMsg ∧
    (∀ (fm : ℚ → String) (dist : ℚ × ℚ → ℚ × ℚ → ℚ) (lat lon : ℚ)
        (c : LocationConstraintM),
      ¬(lat < -90 ∨ 90 < lat) → ¬(lon < -180 ∨ 180 < lon) →
      validateLocation fm dist (lat, lon) c =
        Except.ok (decide (dist (lat, lon) (c.latitude, c.longitude) ≤
          c.maxDistanceMeters))) ∧
    (∀ (fm : ℚ → String) (dist : ℚ × ℚ → ℚ × ℚ → ℚ) (lat lon : ℚ)
        (c : LocationConstraintM),
      (lat < -90 ∨ 90 < lat) →
      validateLocation fm dist (lat, lon) c =
        Except.error (latErrHead ++ fm lat ++ latErrTail)) ∧
    (∀ (fm : ℚ → String) (dist : ℚ × ℚ → ℚ × ℚ → ℚ) (lat lon : ℚ)
        (c : LocationConstraintM),
      ¬(lat < -90 ∨ 90 < lat) → (lon < -180 ∨ 180 < lon) →
      validateLocation fm dist (lat, lon) c =
        Except.error (lonErrHead ++ fm lon ++ lonErrTail)) := by
  refine ⟨by decide, ?_, ?_, ?_⟩
  · intro fm dist lat lon c h1 h2
    simp [validateLocation, h1, h2]
  · intro fm dist lat lon c h1
    simp [validateLocation, h1]
  · intro fm dist lat lon c h1 h2
    simp [validateLocation, h1, h2]

/-- Witness for the amended C7 theorem at a concrete input. -/
theorem zero_coords_location_check_witness :
    validateLocation fmQ distZero (0, 0) lcOrigin =
      Except.ok (decide (distZero (0, 0) (lcOrigin.latitude, lcOrigin.longitude) ≤
        lcOrigin.maxDistanceMeters)) :=
  zero_coords_location_check.2.1 fmQ distZero 0 0 lcOrigin (by decide) (by decide)

/-- C8: one reaper sweep removes a record exactly when `now - submitted_at >
processing_timeout` and keeps it untouched otherwise; the record's status
plays no part in expiry (the same record with any status substituted expires
identically), and the sweep changes nothing else in the state. -/
theorem reaper_removes_iff_expired (s : QState) (now timeout : Nat)
    (id : String) :
    ((cleanupStep s now timeout).index id =
      match s.index id with
      | none => none
      | some r => if now - r.submitted_at > timeout then none else some r) ∧
    (cleanupStep s now timeout).queue = s.queue ∧
    (cleanupStep s now timeout).current = s.current ∧
    (cleanupStep s now timeout).closed = s.closed ∧
    (∀ (r : Rec) (st2 : Status),
      Rec.isExpired now timeout { r with status := st2 } =
        Rec.isExpired now timeout r) := by
  refine ⟨?_, rfl, rfl, rfl, fun r st2 => rfl⟩
  have hap : (cleanupStep s now timeout).index id =
      cleanupSweep s.index now timeout id := rfl
  rw [hap, cleanupSweep_apply]
  cases s.index id with
  | none => rfl
  | some r =>
      simp only [Rec.isExpired]
      by_cases he : now - r.submitted_at > timeout
      · simp [he]
      · simp [he]

/-- C9 (counterexample): at R = 7 the configuration accessor yields 8 whole
seconds while the worker's post-job sleep yields 8.571428571 s; the two
disagree and neither equals 60/7 s exactly (an interval of n nanoseconds
equals 60/R s exactly when R·n = 60·10⁹), refuting the claim. -/
theorem throttle_interval_r7_cex :
    throttleIntervalNs 7 = 8000000000 ∧
    workerSleepNs 7 = 8571428571 ∧
    throttleIntervalNs 7 ≠ workerSleepNs 7 ∧
    7 * workerSleepNs 7 ≠ 60 * 1000000000 ∧
    7 * throttleIntervalNs 7 ≠ 60 * 1000000000 := by
  refine ⟨?_, ?_, ?_, ?_, ?_⟩ <;> decide

/-- C9 (amended): for every valid throttle rate R ≥ 1, the worker's post-job
sleep is exactly ⌊60·10⁹ / R⌋ nanoseconds while the configuration accessor is
⌊60 / R⌋ whole seconds; when R divides 60 the two agree and both equal 60/R
seconds exactly, and the accessor is exact precisely when R divides 60. -/
theorem throttle_interval_formulas (r : Nat) (h : 0 < r) :
    workerSleepNs r = 60 * 1000000000 / r ∧
    (r ∣ 60 → throttleIntervalNs r = workerSleepNs r ∧
      r * workerSleepNs r = 60 * 1000000000) ∧
    (r * throttleIntervalNs r = 60 * 1000000000 ↔ r ∣ 60) := by
  have hkey : 60 * 1000000000 = 60 % r * 1000000000 + r * (60 / r * 1000000000) := by
    have h60 : r * (60 / r) + 60 % r = 60 := Nat.div_add_mod 60 r
    calc 60 * 1000000000 = (r * (60 / r) + 60 % r) * 1000000000 := by rw [h60]
      _ = 60 % r * 1000000000 + r * (60 / r * 1000000000) := by ring
  have hsleep : workerSleepNs r = 60 * 1000000000 / r := by
    rw [hkey, Nat.add_mul_div_left _ _ h]
    simp only [workerSleepNs]
    omega
  refine ⟨hsleep, ?_, ?_⟩
  · intro hdvd
    obtain ⟨c, hc⟩ := id hdvd
    have hmod : 60 % r = 0 := by
      rw [hc]
      exact Nat.mul_mod_right r c
    constructor
    · simp [throttleIntervalNs, workerSleepNs, hmod]
    · rw [hsleep]
      have hd9 : r ∣ 60 * 1000000000 := Dvd.dvd.mul_right hdvd 1000000000
      rw [Nat.mul_div_cancel' hd9]
  · constructor
    · intro heq
      have heq2 : r * (60 / r) * 1000000000 = 60 * 1000000000 := by
        simp only [throttleIntervalNs] at heq
        calc r * (60 / r) * 1000000000 = r * (60 / r * 1000000000) := by ring
          _ = 60 * 1000000000 := heq
      have heq3 : r * (60 / r) = 60 :=
        Nat.eq_of_mul_eq_mul_right (by omega) heq2
      exact ⟨60 / r, heq3.symm⟩
    · intro hdvd
      simp only [throttleIntervalNs]
      calc r * (60 / r * 1000000000) = r * (60 / r) * 1000000000 := by ring
        _ = 60 * 1000000000 := by rw [Nat.mul_div_cancel' hdvd]

/-- Witness for the amended C9 theorem at a concrete input. -/
theorem throttle_interval_formulas_witness :
    workerSleepNs 6 = 60 * 1000000000 / 6 :=
  (throttle_interval_formulas 6 (by decide)).1

/-- A state holding one pending item for `idA` and no record for it, as left
behind by a reaper sweep that evicted the record while the item was queued. -/
def stateOrphan : QState :=
  { index := fun _ => none, queue := [reqA], current := none, closed := false }

/-- C10: when the worker dequeues an item whose processing id has no record,
the full processing step — which unconditionally acquires the throttle permit
and runs the validation, whose outcome is `outcome` — changes no record in the
index, creates no record for the id, and simply consumes the queue item. -/
theorem orphan_item_leaves_index_unchanged (s : QState) (req : RequestM)
    (rest : List RequestM) (outcome : Option VResults) (t1 t2 : Nat)
    (hq : s.queue = req :: rest) (hn : s.index req.processing_id = none) :
    (∀ k, (workerProcessStep s outcome t1 t2).index k = s.index k) ∧
    (workerProcessStep s outcome t1 t2).index req.processing_id = none ∧
    (workerProcessStep s outcome t1 t2).queue = rest ∧
    (workerProcessStep s outcome t1 t2).current = none := by
  have hst1 : workerStartStep s t1 =
      { s with
        queue := rest
        current := some req.processing_id
        index := indexUpdate s.index req.processing_id (Rec.startProcessing t1) } := by
    simp [workerStartStep, hq]
  have hpoint1 : ∀ k,
      indexUpdate s.index req.processing_id (Rec.startProcessing t1) k = s.index k := by
    intro k
    by_cases hk : k = req.processing_id
    · rw [hk, indexUpdate_self, hn]
      rfl
    · exact indexUpdate_other _ _ _ _ hk
  have hfin : workerProcessStep s outcome t1 t2 =
      { s with
        queue := rest
        current := none
        index := indexUpdate
          (indexUpdate s.index req.processing_id (Rec.startProcessing t1))
          req.processing_id (finishRecord req.processing_id outcome t2) } := by
    simp [workerProcessStep, hst1, workerFinishStep]
  have hpoint2 : ∀ k, (workerProcessStep s outcome t1 t2).index k = s.index k := by
    intro k
    rw [hfin]
    show indexUpdate (indexUpdate s.index req.processing_id (Rec.startProcessing t1))
        req.processing_id (finishRecord req.processing_id outcome t2) k = s.index k
    by_cases hk : k = req.processing_id
    · rw [hk, indexUpdate_self, hpoint1, hn]
      rfl
    · rw [indexUpdate_other _ _ _ _ hk]
      exact hpoint1 k
  refine ⟨hpoint2, ?_, ?_, ?_⟩
  · rw [hpoint2, hn]
  · rw [hfin]
  · rw [hfin]

/-- Witness for the C10 theorem at a concrete input. -/
theorem orphan_item_leaves_index_unchanged_witness :
    (workerProcessStep stateOrphan (some resOK) 1 2).index reqA.processing_id =
      none :=
  (orphan_item_leaves_index_unchanged stateOrphan reqA [] (some resOK) 1 2
    rfl rfl).2.1
